import Mathlib

/-!
Verification of the YouTrack → Azure DevOps Boards migrator (`migrator.py`).

The Python module is shallowly embedded: every HTTP call issued by the
migrator is recorded in a trace of `AdoCall` values, the contents of the
relevant HTTP responses are supplied as explicit oracles (the created work
item's `id`, the attachment-upload `url`s), and exceptions are modelled with
`Except`/`Option`.  Library collaborators (Python `str.replace`, `str.split`,
`datetime.utcfromtimestamp(..).isoformat()`, `base64.b64encode`) are given
executable Lean counterparts with the same semantics on the inputs the
migrator uses; `base64.b64decode` is kept as an opaque parameter because the
migrator only chooses *which substring* is decoded.
-/

set_option maxHeartbeats 1000000

namespace YTMigrator

/-! ### Python `str.replace` (all non-overlapping occurrences, left to right) -/

/-- Fuel-driven worker for `str.replace`; the fuel only has to dominate the
length of the scanned list, so `pyRep` below always supplies enough. -/
def pyReplaceF (old new : List Char) : Nat → List Char → List Char
  | _, [] => []
  | 0, l => l
  | f + 1, c :: rest =>
    if old.isPrefixOf (c :: rest) ∧ old ≠ [] then
      new ++ pyReplaceF old new f (rest.drop (old.length - 1))
    else
      c :: pyReplaceF old new f rest

/-- Python `s.replace(old, new)` on character lists (for non-empty `old`). -/
def pyRep (old new l : List Char) : List Char := pyReplaceF old new l.length l

/-- Python `s.replace(old, new)` on strings. -/
def pyReplace (s old new : String) : String := ⟨pyRep old.data new.data s.data⟩

/-! ### Python `str.split` with a one-character separator -/

/-- Python `s.split(sep)` for a single-character separator: `"".split(",") = [""]`,
separators are not collapsed. -/
def splitOnChar (c : Char) : List Char → List (List Char)
  | [] => [[]]
  | x :: xs =>
    match splitOnChar c xs with
    | [] => [[]]
    | h :: t => if x = c then [] :: h :: t else (x :: h) :: t

/-! ### Decimal rendering and `datetime.utcfromtimestamp(..).isoformat()` -/

/-- Decimal digits of `n`, most significant first (fuel-driven). -/
def natToDecAux : Nat → Nat → List Char
  | 0, _ => []
  | _ + 1, 0 => []
  | f + 1, n => natToDecAux f (n / 10) ++ [Char.ofNat (48 + n % 10)]

/-- Decimal rendering of a natural number. -/
def natToDec (n : Nat) : String :=
  if n = 0 then "0" else ⟨natToDecAux n n⟩

/-- Zero-pad to two digits, as `isoformat` renders month/day/hour/minute/second. -/
def pad2 (n : Nat) : String :=
  if n < 10 then "0" ++ natToDec n else natToDec n

/-- Render a (positive) year as four digits. -/
def pad4 (y : Int) : String :=
  let n := y.toNat
  if n < 10 then "000" ++ natToDec n
  else if n < 100 then "00" ++ natToDec n
  else if n < 1000 then "0" ++ natToDec n
  else natToDec n

/-- Civil date from days since the Unix epoch (standard civil-calendar
conversion, mirroring what `datetime.utcfromtimestamp` computes). -/
def civilFromDays (z0 : Int) : Int × Nat × Nat :=
  let z := z0 + 719468
  let era := Int.fdiv z 146097
  let doe := (z - era * 146097).toNat
  let yoe := (doe - doe / 1460 + doe / 36524 - doe / 146096) / 365
  let doy := doe - (365 * yoe + yoe / 4 - yoe / 100)
  let mp := (5 * doy + 2) / 153
  let d := doy - (153 * mp + 2) / 5 + 1
  let m := if mp < 10 then mp + 3 else mp - 9
  ((yoe : Int) + era * 400 + (if mp ≥ 10 then 1 else 0), m, d)

/-- `datetime.utcfromtimestamp(secs).isoformat()` for whole seconds. -/
def isoFromEpochSeconds (secs : Int) : String :=
  let days := Int.fdiv secs 86400
  let sod := (Int.emod secs 86400).toNat
  let ymd := civilFromDays days
  pad4 ymd.1 ++ "-" ++ pad2 ymd.2.1 ++ "-" ++ pad2 ymd.2.2 ++ "T" ++
    pad2 (sod / 3600) ++ ":" ++ pad2 (sod % 3600 / 60) ++ ":" ++ pad2 (sod % 60)

/-- `Migrator._format_yt_timestamp`: truncate epoch milliseconds to whole
seconds (Python floor division `// 1000`) and render as naive ISO-8601. -/
def formatYtTimestamp (timestamp : Int) : String :=
  isoFromEpochSeconds (Int.fdiv timestamp 1000)

/-! ### `base64.b64encode` on ASCII input (used for the Azure DevOps header) -/

/-- The standard base64 alphabet. -/
def base64Alphabet : List Char :=
  "ABCDEFGHIJKLMNOPQRSTUVWXYZabcdefghijklmnopqrstuvwxyz0123456789+/".data

/-- Base64-encode a byte list, with `=` padding. -/
def b64EncodeBytes : List Nat → List Char
  | [] => []
  | [a] => [base64Alphabet.getD (a / 4) 'A', base64Alphabet.getD (a % 4 * 16) 'A', '=', '=']
  | [a, b] => [base64Alphabet.getD (a / 4) 'A', base64Alphabet.getD (a % 4 * 16 + b / 16) 'A',
      base64Alphabet.getD (b % 16 * 4) 'A', '=']
  | a :: b :: c :: rest =>
    base64Alphabet.getD (a / 4) 'A' :: base64Alphabet.getD (a % 4 * 16 + b / 16) 'A' ::
      base64Alphabet.getD (b % 16 * 4 + c / 64) 'A' :: base64Alphabet.getD (c % 64) 'A' ::
        b64EncodeBytes rest

/-- `base64.b64encode(s.encode("ascii")).decode("ascii")`. -/
def b64EncodeAscii (s : String) : String := ⟨b64EncodeBytes (s.data.map Char.toNat)⟩

/-! ### Data model (`migrator.py` lines 11-18 and the YouTrack payload shape) -/

/-- `SetFieldOperation` dataclass. -/
structure SetFieldOperation where
  ado_field : String
  yt_field : String
  set_after_creation : Bool
  deriving DecidableEq

/-- A JSON-patch operation as built by `Migrator._set_field`
(the constant `"from": None` member is omitted). -/
structure FieldOp where
  op : String
  path : String
  value : String
  deriving DecidableEq

/-- `Migrator._set_field`. -/
def setField (ado_field yt_field : String) : FieldOp :=
  { op := "add", path := "/fields/" ++ ado_field, value := yt_field }

/-- One YouTrack comment, as read from the issue payload. -/
structure SourceComment where
  author : String
  created : Int
  text : String
  deriving DecidableEq

/-- One YouTrack attachment, as read from the issue payload. -/
structure SourceAttachment where
  name : String
  base64Content : String
  deriving DecidableEq

/-- One YouTrack custom field (its value is opaque to the migrator). -/
structure CustomField where
  name : String
  value : String
  deriving DecidableEq

/-- The decoded YouTrack issue payload used by `migrate_issue`. -/
structure YTIssueData where
  summary : String
  description : String
  created : Int
  reporter : String
  customFields : List CustomField
  comments : List SourceComment
  attachments : List SourceAttachment
  deriving DecidableEq

/-- The decoded response of the work-item creation `POST`: its `id` member
(if present) and the raw body used in the error message. -/
structure CreateResponse where
  id : Option Int
  raw : String
  deriving DecidableEq

/-- The Python exceptions that can escape `migrate_issue`. -/
inductive MigrationError where
  | creationFailed (ytId : String) (raw : String)
  | indexError
  | keyError (key : String)
  | jsonDecodeError
  deriving DecidableEq

/-- The Azure DevOps HTTP calls issued by `migrate_issue`, in issue order. -/
inductive AdoCall where
  | createWorkItem (ops : List FieldOp)
  | patchWorkItem (workItemId : Int) (ops : List FieldOp)
  | postComment (workItemId : Int) (text : String)
  | uploadAttachment (content : List Nat)
  | linkAttachment (workItemId : Int) (url : String) (name : String)
  deriving DecidableEq

/-- The migrator state assembled by `Migrator.__init__`. -/
structure Migrator where
  yt_base : String
  ado_base : String
  auth_header_azdo : String
  auth_header_youtrack : Option String
  deriving DecidableEq

/-- `Migrator._authorization_header_azdo`. -/
def authorizationHeaderAzdo (pat : String) : String :=
  "Basic " ++ b64EncodeAscii (":" ++ pat)

/-- `Migrator._authorization_header_youtrack`. -/
def authorizationHeaderYoutrack (token : String) : String := "Bearer " ++ token

/-- `Migrator.__init__`: the YouTrack header is set only when a token is
supplied and is not the empty string. -/
def mkMigrator (token_azdo yt_base ado_organization ado_project : String)
    (token_youtrack : Option String) : Migrator :=
  { yt_base := yt_base
    ado_base := ado_organization ++ "/" ++ ado_project ++ "/_apis/wit"
    auth_header_azdo := authorizationHeaderAzdo token_azdo
    auth_header_youtrack :=
      match token_youtrack with
      | some t => if t ≠ "" then some (authorizationHeaderYoutrack t) else none
      | none => none }

/-! ### YouTrack-side requests (for the authorization-header claim) -/

/-- A YouTrack HTTP request: its URL and header map. -/
structure HttpRequest where
  url : String
  headers : List (String × String)
  deriving DecidableEq

/-- The headers dict both YouTrack `GET`s build: empty, plus `Authorization`
when `auth_header_youtrack` is not `None`. -/
def youtrackHeaders (m : Migrator) : List (String × String) :=
  match m.auth_header_youtrack with
  | some h => [("Authorization", h)]
  | none => []

/-- The `fields=` query of `Migrator._youtrack_issue_data`. -/
def ytFieldsQuery : String :=
  "customFields(name,value(avatarUrl,buildLink,color(id),fullName,id," ++
    "isResolved,localizedName,login,minutes,name,presentation,text))," ++
    "created,reporter(login),summary,description," ++
    "comments(created,author(login),text),attachments(base64Content,name)"

/-- The issue `GET` issued by `Migrator._youtrack_issue_data` (used by both
`migrate_issue` and `custom_fields`). -/
def youtrackIssueRequest (m : Migrator) (yt_id : String) : HttpRequest :=
  { url := m.yt_base ++ "/api/issues/" ++ yt_id ++ "?fields=" ++ ytFieldsQuery
    headers := youtrackHeaders m }

/-- The project listing `GET` issued by `Migrator.migrate_project`. -/
def projectIssuesRequest (m : Migrator) (yt_project : String) (limit : Nat) : HttpRequest :=
  { url := m.yt_base ++ "/api/issues?fields=idReadable&$top=" ++ natToDec limit ++
      "&query=project:+" ++ yt_project
    headers := youtrackHeaders m }

/-! ### `migrate_issue` -/

/-- `Migrator._build_custom_field_dict`. -/
def buildCustomFieldDict (yt_data : YTIssueData) : List (String × String) :=
  yt_data.customFields.map fun v => (v.name, v.value)

/-- `Migrator.custom_fields`, given the decoded issue payload. -/
def customFields (yt_data : YTIssueData) : List (String × String) :=
  buildCustomFieldDict yt_data

/-- The provenance header prepended to the migrated description
(`migrate_issue` lines 89-93). -/
def descriptionHeader (yt_base yt_id reporter created : String) : String :=
  "[Migrated from <a href=\"" ++ yt_base ++ "/issue/" ++ yt_id ++
    "\">YouTrack</a>, originally reported by " ++ reporter ++ " on " ++ created ++ "]"

/-- The full migrated description: provenance header, blank line, original
body, with every newline expanded to `<br />` (line 94). -/
def descriptionText (yt_base yt_id reporter created body : String) : String :=
  pyReplace (descriptionHeader yt_base yt_id reporter created ++ "\n\n" ++ body) "\n" "<br />\n"

/-- The provenance header prepended to each migrated comment (lines 134-138). -/
def commentHeader (yt_base yt_id author created : String) : String :=
  "[Migrated from <a href=\"" ++ yt_base ++ "/issue/" ++ yt_id ++
    "\">YouTrack</a>. Original comment by " ++ author ++ " on " ++ created ++ "]"

/-- The full migrated comment text, with every newline expanded to `<br/>`
(line 139). -/
def commentText (yt_base yt_id author created body : String) : String :=
  pyReplace (commentHeader yt_base yt_id author created ++ "\n\n" ++ body) "\n" "<br/>\n"

/-- The custom-field loop of `migrate_issue` (lines 100-102): each policy
operation is appended to `delayed_ops` or `create_ops` by its flag. -/
def partitionOps : List FieldOp → List FieldOp → List SetFieldOperation →
    List FieldOp × List FieldOp
  | create_ops, delayed_ops, [] => (create_ops, delayed_ops)
  | create_ops, delayed_ops, custom_op :: rest =>
    let op := setField custom_op.ado_field custom_op.yt_field
    if custom_op.set_after_creation then
      partitionOps create_ops (delayed_ops ++ [op]) rest
    else
      partitionOps (create_ops ++ [op]) delayed_ops rest

/-- The creation-time and deferred operation lists assembled by
`migrate_issue` before the creation `POST` (lines 81-102). -/
def composedOps (m : Migrator) (yt_id : String)
    (custom_field_handler : List (String × String) → List SetFieldOperation)
    (yt_data : YTIssueData) : List FieldOp × List FieldOp :=
  partitionOps
    [setField "System.Title" yt_data.summary,
     setField "System.Description"
       (descriptionText m.yt_base yt_id yt_data.reporter
         (formatYtTimestamp yt_data.created) yt_data.description)]
    [] (custom_field_handler (buildCustomFieldDict yt_data))

/-- The attachment loop of `migrate_issue` (lines 153-188).  For each
attachment: take `split(",")[1]` of the payload (an `IndexError` aborts the
loop), `b64decode` it, `POST` it, read the `url` of the upload response (the
oracle `uploadRes`, whose failure models `res.json()["url"]` raising), and
`PATCH` the relation onto the work item. -/
def processAttachments (b64decode : String → List Nat)
    (uploadRes : Nat → Except MigrationError String) (workItemId : Int) :
    List SourceAttachment → Nat → List AdoCall × Option MigrationError
  | [], _ => ([], none)
  | a :: rest, j =>
    match (splitOnChar ',' a.base64Content.data).get? 1 with
    | none => ([], some MigrationError.indexError)
    | some b64chars =>
      let decoded := b64decode (String.mk b64chars)
      match uploadRes j with
      | Except.error e => ([AdoCall.uploadAttachment decoded], some e)
      | Except.ok url =>
        let res := processAttachments b64decode uploadRes workItemId rest (j + 1)
        (AdoCall.uploadAttachment decoded ::
          AdoCall.linkAttachment workItemId url a.name :: res.1, res.2)

/-- `Migrator.migrate_issue` (lines 76-188), given the decoded issue payload
and the response oracles.  The result is the list of Azure DevOps calls
issued, in order, together with either the escaping exception or the value
returned to the caller (the Python function has no `return` statement, so a
completed run returns `None`, modelled `Except.ok none`). -/
def migrateIssue (m : Migrator) (b64decode : String → List Nat) (yt_id : String)
    (custom_field_handler : List (String × String) → List SetFieldOperation)
    (yt_data : YTIssueData) (createRes : CreateResponse)
    (uploadRes : Nat → Except MigrationError String) :
    List AdoCall × Except MigrationError (Option Int) :=
  let ops := composedOps m yt_id custom_field_handler yt_data
  match createRes.id with
  | none =>
    ([AdoCall.createWorkItem ops.1],
      Except.error (MigrationError.creationFailed yt_id createRes.raw))
  | some work_item_id =>
    let commentCalls := yt_data.comments.map fun c =>
      AdoCall.postComment work_item_id
        (commentText m.yt_base yt_id c.author (formatYtTimestamp c.created) c.text)
    let att := processAttachments b64decode uploadRes work_item_id yt_data.attachments 0
    (AdoCall.createWorkItem ops.1 ::
        AdoCall.patchWorkItem work_item_id ops.2 :: (commentCalls ++ att.1),
      match att.2 with
      | some e => Except.error e
      | none => Except.ok none)

/-! ### `migrate_project` -/

/-- Which exceptions the driver's `try`/`except` retries: exactly
`json.decoder.JSONDecodeError` (lines 211-217). -/
def retriedByDriver : MigrationError → Bool
  | MigrationError.jsonDecodeError => true
  | _ => false

/-- Result of the per-issue `while True` retry loop: migrated, aborted by a
non-retried exception, or still retrying when the observation fuel ran out
(the loop itself has no cap).  `waited` is total `time.sleep` seconds. -/
inductive IssueLoopResult where
  | migrated (waited : Nat)
  | failed (e : MigrationError) (waited : Nat)
  | stillRetrying (waited : Nat)
  deriving DecidableEq

/-- The `while True` loop of `migrate_project` for one issue: `attempt k` is
the outcome of the `k`-th `migrate_issue` call (`none` = returned normally);
on `JSONDecodeError` it sleeps 3 seconds and retries, any other exception
propagates. -/
def retryIssueLoop (attempt : Nat → Option MigrationError) :
    Nat → Nat → Nat → IssueLoopResult
  | 0, _, w => IssueLoopResult.stillRetrying w
  | fuel + 1, k, w =>
    match attempt k with
    | none => IssueLoopResult.migrated w
    | some e =>
      if retriedByDriver e then retryIssueLoop attempt fuel (k + 1) (w + 3)
      else IssueLoopResult.failed e w

/-- Result of a whole `migrate_project` run over the listed identifiers. -/
inductive ProjectResult where
  | completed (migratedIds : List String) (waited : Nat)
  | aborted (migratedIds : List String) (waited : Nat) (e : MigrationError)
  | interrupted (migratedIds : List String) (waited : Nat)
  deriving DecidableEq

/-- The `for` loop of `migrate_project` (lines 206-218): issues are processed
in listed order; a non-retried exception aborts the whole run. `o i k` is the
outcome of attempt `k` for the issue at index `i`. -/
def migrateProjectLoop (o : Nat → Nat → Option MigrationError) (fuel : Nat) :
    List String → Nat → List String → Nat → ProjectResult
  | [], _, acc, w => ProjectResult.completed acc w
  | yt_id :: rest, i, acc, w =>
    match retryIssueLoop (o i) fuel 0 0 with
    | IssueLoopResult.migrated wi =>
      migrateProjectLoop o fuel rest (i + 1) (acc ++ [yt_id]) (w + wi)
    | IssueLoopResult.failed e wi => ProjectResult.aborted acc (w + wi) e
    | IssueLoopResult.stillRetrying wi => ProjectResult.interrupted acc (w + wi)

/-- `Migrator.migrate_project`, given the decoded identifier list and the
per-issue attempt oracle. -/
def migrateProjectRun (issues : List String)
    (o : Nat → Nat → Option MigrationError) (fuel : Nat) : ProjectResult :=
  migrateProjectLoop o fuel issues 0 [] 0

/-! ### Lemmas about `pyRep` -/

theorem pyReplaceF_nil (old new : List Char) (f : Nat) : pyReplaceF old new f [] = [] := by
  cases f <;> rfl

theorem pyReplaceF_congr (old new : List Char) :
    ∀ f₁ f₂ l, l.length ≤ f₁ → l.length ≤ f₂ →
      pyReplaceF old new f₁ l = pyReplaceF old new f₂ l := by
  intro f₁
  induction f₁ with
  | zero =>
    intro f₂ l h1 _
    have hl : l = [] := List.eq_nil_of_length_eq_zero (Nat.le_zero.mp h1)
    subst hl
    rw [pyReplaceF_nil, pyReplaceF_nil]
  | succ f ih =>
    intro f₂ l h1 h2
    cases l with
    | nil => rw [pyReplaceF_nil, pyReplaceF_nil]
    | cons c rest =>
      cases f₂ with
      | zero => exact absurd h2 (by simp)
      | succ g =>
        simp only [pyReplaceF]
        by_cases hc : old.isPrefixOf (c :: rest) ∧ old ≠ []
        · rw [if_pos hc, if_pos hc]
          have hd : (rest.drop (old.length - 1)).length ≤ rest.length := by
            rw [List.length_drop]; omega
          have h1' : rest.length ≤ f := by simpa using h1
          have h2' : rest.length ≤ g := by simpa using h2
          rw [ih g (rest.drop (old.length - 1)) (le_trans hd h1') (le_trans hd h2')]
        · rw [if_neg hc, if_neg hc]
          have h1' : rest.length ≤ f := by simpa using h1
          have h2' : rest.length ≤ g := by simpa using h2
          rw [ih g rest h1' h2']

theorem pyRep_nil (old new : List Char) : pyRep old new [] = [] := rfl

theorem pyRep_cons_pos (old new : List Char) (c : Char) (rest : List Char)
    (h : old.isPrefixOf (c :: rest)) (hne : old ≠ []) :
    pyRep old new (c :: rest) = new ++ pyRep old new (rest.drop (old.length - 1)) := by
  show pyReplaceF old new (rest.length + 1) (c :: rest) = _
  simp only [pyReplaceF, if_pos (And.intro h hne)]
  have hd : (rest.drop (old.length - 1)).length ≤ rest.length := by
    rw [List.length_drop]; omega
  rw [pyReplaceF_congr old new rest.length (rest.drop (old.length - 1)).length
    (rest.drop (old.length - 1)) hd le_rfl]
  rfl

theorem pyRep_cons_neg (old new : List Char) (c : Char) (rest : List Char)
    (h : ¬(old.isPrefixOf (c :: rest) ∧ old ≠ [])) :
    pyRep old new (c :: rest) = c :: pyRep old new rest := by
  show pyReplaceF old new (rest.length + 1) (c :: rest) = _
  simp only [pyReplaceF, if_neg h]
  rfl

theorem pyRep_single_not_mem (c : Char) (new : List Char) :
    ∀ l : List Char, c ∉ l → pyRep [c] new l = l := by
  intro l
  induction l with
  | nil => intro _; rfl
  | cons x xs ih =>
    intro h
    have hx : x ≠ c := fun he => h (by rw [← he]; exact List.mem_cons_self x xs)
    rw [pyRep_cons_neg]
    · rw [ih (fun hm => h (List.mem_cons_of_mem x hm))]
    · intro hc
      obtain ⟨t, ht⟩ := List.isPrefixOf_iff_prefix.mp hc.1
      simp only [List.cons_append, List.nil_append] at ht
      exact hx ((List.cons.injEq _ _ _ _).mp ht).1.symm

theorem pyRep_single_split (c : Char) (new : List Char) :
    ∀ (a t : List Char), c ∉ a →
      pyRep [c] new (a ++ c :: t) = a ++ new ++ pyRep [c] new t := by
  intro a
  induction a with
  | nil =>
    intro t _
    rw [List.nil_append, pyRep_cons_pos [c] new c t (by simp [List.isPrefixOf]) (by simp)]
    simp
  | cons x a' ih =>
    intro t h
    have hx : x ≠ c := fun he => h (by rw [← he]; exact List.mem_cons_self x a')
    rw [List.cons_append, pyRep_cons_neg]
    · rw [ih t (fun hm => h (List.mem_cons_of_mem x hm))]
      simp
    · intro hc
      obtain ⟨s, hs⟩ := List.isPrefixOf_iff_prefix.mp hc.1
      simp only [List.cons_append, List.nil_append] at hs
      exact hx ((List.cons.injEq _ _ _ _).mp hs).1.symm

theorem pyRep_single_append (c : Char) (new : List Char) :
    ∀ (x y : List Char), pyRep [c] new (x ++ y) = pyRep [c] new x ++ pyRep [c] new y := by
  intro x
  induction x with
  | nil => intro y; rw [pyRep_nil, List.nil_append, List.nil_append]
  | cons a x' ih =>
    intro y
    by_cases ha : a = c
    · subst ha
      rw [List.cons_append,
        pyRep_cons_pos [a] new a (x' ++ y) (by simp [List.isPrefixOf]) (by simp),
        pyRep_cons_pos [a] new a x' (by simp [List.isPrefixOf]) (by simp)]
      simp only [List.length_cons, List.length_nil, Nat.zero_add, Nat.sub_self,
        List.drop_zero]
      rw [ih]
      simp
    · have hx : a ≠ c := ha
      rw [List.cons_append, pyRep_cons_neg, pyRep_cons_neg]
      · rw [ih]; rfl
      · intro hc
        obtain ⟨s, hs⟩ := List.isPrefixOf_iff_prefix.mp hc.1
        simp only [List.cons_append, List.nil_append] at hs
        exact hx ((List.cons.injEq _ _ _ _).mp hs).1.symm
      · intro hc
        obtain ⟨s, hs⟩ := List.isPrefixOf_iff_prefix.mp hc.1
        simp only [List.cons_append, List.nil_append] at hs
        exact hx ((List.cons.injEq _ _ _ _).mp hs).1.symm

theorem pyRep_no_occurrence (d : Char) (pat new : List Char) (hd : d ∈ pat) :
    ∀ l : List Char, d ∉ l → pyRep pat new l = l := by
  intro l
  induction l with
  | nil => intro _; rfl
  | cons x xs ih =>
    intro h
    rw [pyRep_cons_neg]
    · rw [ih (fun hm => h (List.mem_cons_of_mem x hm))]
    · intro hc
      exact h (( List.isPrefixOf_iff_prefix.mp hc.1).subset hd)

theorem pyRep_back_step (B : List Char) (hB : '\n' ∉ B) (hne : B ≠ []) :
    ∀ (a t : List Char), '\n' ∉ a →
      pyRep (B ++ ['\n']) ['\n'] (a ++ B ++ '\n' :: t) =
        a ++ '\n' :: pyRep (B ++ ['\n']) ['\n'] t := by
  intro a
  induction a with
  | nil =>
    intro t _
    cases hBc : B with
    | nil => exact absurd hBc hne
    | cons b B' =>
      subst hBc
      show pyRep ((b :: B') ++ ['\n']) ['\n'] (b :: (B' ++ '\n' :: t)) =
        '\n' :: pyRep ((b :: B') ++ ['\n']) ['\n'] t
      rw [pyRep_cons_pos ((b :: B') ++ ['\n']) ['\n'] b (B' ++ '\n' :: t)
        ( List.isPrefixOf_iff_prefix.mpr ⟨t, by simp⟩) (by simp)]
      have hdrop : (B' ++ '\n' :: t).drop (((b :: B') ++ ['\n']).length - 1) = t := by
        have h1 : ((b :: B') ++ ['\n']).length - 1 = (B' ++ ['\n']).length := by simp
        rw [h1, show B' ++ '\n' :: t = (B' ++ ['\n']) ++ t by simp, List.drop_left]
      rw [hdrop]
      rfl
  | cons x a' ih =>
    intro t h
    have hx : x ≠ '\n' := fun he => h (by rw [← he]; exact List.mem_cons_self x a')
    have hstep : (x :: a') ++ B ++ '\n' :: t = x :: (a' ++ B ++ '\n' :: t) := by simp
    rw [hstep, pyRep_cons_neg]
    · rw [ih t (fun hm => h (List.mem_cons_of_mem x hm))]
      simp
    · intro hc
      obtain ⟨s, hs⟩ := List.isPrefixOf_iff_prefix.mp hc.1
      have h1 : ((B ++ ['\n']) ++ s).get? B.length = some '\n' := by
        rw [List.get?_append (by simp)]
        exact List.get?_concat_length B '\n'
      rw [hs] at h1
      have h2 : ((x :: (a' ++ B)) ++ '\n' :: t).get? B.length = some '\n' := by
        simpa [List.append_assoc] using h1
      rw [List.get?_append (by simp; omega)] at h2
      have h3 := List.get?_mem h2
      rcases List.mem_cons.mp h3 with h4 | h4
      · exact hx h4.symm
      · rcases List.mem_append.mp h4 with h5 | h5
        · exact h (List.mem_cons_of_mem x h5)
        · exact hB h5

theorem exists_first_occurrence (c : Char) :
    ∀ l : List Char, c ∈ l → ∃ a t, l = a ++ c :: t ∧ c ∉ a := by
  intro l
  induction l with
  | nil => intro h; exact absurd h (List.not_mem_nil c)
  | cons x xs ih =>
    intro h
    by_cases hx : x = c
    · exact ⟨[], xs, by rw [hx, List.nil_append], List.not_mem_nil c⟩
    · have hm : c ∈ xs := by
        rcases List.mem_cons.mp h with h1 | h1
        · exact absurd h1.symm hx
        · exact h1
      obtain ⟨a, t, hl, ha⟩ := ih hm
      refine ⟨x :: a, t, by rw [hl, List.cons_append], ?_⟩
      intro hmem
      rcases List.mem_cons.mp hmem with h1 | h1
      · exact hx h1.symm
      · exact ha h1

theorem pyRep_roundtrip_aux (B : List Char) (hB : '\n' ∉ B) (hne : B ≠ []) :
    ∀ (n : Nat) (l : List Char), l.length ≤ n →
      pyRep (B ++ ['\n']) ['\n'] (pyRep ['\n'] (B ++ ['\n']) l) = l := by
  intro n
  induction n with
  | zero =>
    intro l h
    have hl : l = [] := List.eq_nil_of_length_eq_zero (Nat.le_zero.mp h)
    subst hl; rfl
  | succ n ih =>
    intro l hl
    by_cases hm : '\n' ∈ l
    · obtain ⟨a, t, rfl, ha⟩ := exists_first_occurrence '\n' l hm
      rw [pyRep_single_split '\n' (B ++ ['\n']) a t ha]
      have hre : a ++ (B ++ ['\n']) ++ pyRep ['\n'] (B ++ ['\n']) t =
          a ++ B ++ '\n' :: pyRep ['\n'] (B ++ ['\n']) t := by
        simp
      rw [hre, pyRep_back_step B hB hne a _ ha,
        ih t (by simp only [List.length_append, List.length_cons] at hl; omega)]
    · rw [pyRep_single_not_mem '\n' (B ++ ['\n']) l hm,
        pyRep_no_occurrence '\n' (B ++ ['\n']) ['\n'] (by simp) l hm]

theorem pyRep_roundtrip (B : List Char) (hB : '\n' ∉ B) (hne : B ≠ [])
    (l : List Char) :
    pyRep (B ++ ['\n']) ['\n'] (pyRep ['\n'] (B ++ ['\n']) l) = l :=
  pyRep_roundtrip_aux B hB hne l.length l le_rfl

/-! ### Lemmas about `splitOnChar` -/

theorem splitOnChar_ne_nil (c : Char) : ∀ l, splitOnChar c l ≠ [] := by
  intro l
  cases l with
  | nil => simp [splitOnChar]
  | cons x xs =>
    simp only [splitOnChar]
    rcases splitOnChar c xs with _ | ⟨h, t⟩
    · simp
    · by_cases hx : x = c <;> simp [hx]

theorem splitOnChar_not_mem (c : Char) : ∀ l, c ∉ l → splitOnChar c l = [l] := by
  intro l
  induction l with
  | nil => intro _; rfl
  | cons x xs ih =>
    intro h
    have hx : x ≠ c := fun he => h (by rw [← he]; exact List.mem_cons_self x xs)
    simp only [splitOnChar]
    rw [ih (fun hm => h (List.mem_cons_of_mem x hm))]
    simp [hx]

theorem splitOnChar_first (c : Char) : ∀ (a b : List Char), c ∉ a →
    splitOnChar c (a ++ c :: b) = a :: splitOnChar c b := by
  intro a
  induction a with
  | nil =>
    intro b _
    simp only [List.nil_append, splitOnChar]
    rcases hsp : splitOnChar c b with _ | ⟨h, t⟩
    · exact absurd hsp (splitOnChar_ne_nil c b)
    · simp
  | cons x a' ih =>
    intro b h
    have hx : x ≠ c := fun he => h (by rw [← he]; exact List.mem_cons_self x a')
    have hih := ih b (fun hm => h (List.mem_cons_of_mem x hm))
    have hun : splitOnChar c ((x :: a') ++ c :: b) =
        match splitOnChar c (a' ++ c :: b) with
        | [] => [[]]
        | hh :: tt => if x = c then [] :: hh :: tt else (x :: hh) :: tt := rfl
    rw [hun, hih]
    simp [hx]

theorem splitOnChar_get1 (meta data : List Char) (hm : ',' ∉ meta) (hd : ',' ∉ data) :
    (splitOnChar ',' (meta ++ ',' :: data)).get? 1 = some data := by
  rw [splitOnChar_first ',' meta data hm, splitOnChar_not_mem ',' data hd]
  rfl

/-! ### Lemmas about `partitionOps` -/

theorem partitionOps_eq :
    ∀ (ops : List SetFieldOperation) (create_ops delayed_ops : List FieldOp),
      partitionOps create_ops delayed_ops ops =
        (create_ops ++ (ops.filter fun o => !o.set_after_creation).map
            (fun o => setField o.ado_field o.yt_field),
         delayed_ops ++ (ops.filter fun o => o.set_after_creation).map
            (fun o => setField o.ado_field o.yt_field)) := by
  intro ops
  induction ops with
  | nil => intro c d; simp [partitionOps]
  | cons op rest ih =>
    intro c d
    cases hf : op.set_after_creation with
    | true =>
      have h1 : partitionOps c d (op :: rest) =
          partitionOps c (d ++ [setField op.ado_field op.yt_field]) rest := by
        simp [partitionOps, hf]
      rw [h1, ih]
      simp [List.filter_cons, hf]
    | false =>
      have h1 : partitionOps c d (op :: rest) =
          partitionOps (c ++ [setField op.ado_field op.yt_field]) d rest := by
        simp [partitionOps, hf]
      rw [h1, ih]
      simp [List.filter_cons, hf]

/-! ### Lemmas about `processAttachments` -/

/-- The expected per-attachment call pairs: one upload of the decoded
`split(",")[1]` payload immediately followed by one relation link, per
attachment, in source order. -/
def expectedAttachmentCalls (b64decode : String → List Nat) (urls : Nat → String)
    (workItemId : Int) : List SourceAttachment → Nat → List AdoCall
  | [], _ => []
  | a :: rest, j =>
    AdoCall.uploadAttachment
        (b64decode (String.mk (((splitOnChar ',' a.base64Content.data).get? 1).getD []))) ::
      AdoCall.linkAttachment workItemId (urls j) a.name ::
        expectedAttachmentCalls b64decode urls workItemId rest (j + 1)

theorem processAttachments_ok (b64decode : String → List Nat)
    (uploadRes : Nat → Except MigrationError String) (urls : Nat → String)
    (workItemId : Int) :
    ∀ (atts : List SourceAttachment) (j0 : Nat),
      (∀ a ∈ atts, ((splitOnChar ',' a.base64Content.data).get? 1).isSome) →
      (∀ i, i < atts.length → uploadRes (j0 + i) = Except.ok (urls (j0 + i))) →
      processAttachments b64decode uploadRes workItemId atts j0 =
        (expectedAttachmentCalls b64decode urls workItemId atts j0, none) := by
  intro atts
  induction atts with
  | nil => intro j0 _ _; rfl
  | cons a rest ih =>
    intro j0 hsplit hup
    have ha := hsplit a (List.mem_cons_self a rest)
    rcases hopt : (splitOnChar ',' a.base64Content.data).get? 1 with _ | b64
    · rw [hopt] at ha; simp at ha
    · have hu : uploadRes j0 = Except.ok (urls j0) := by
        have := hup 0 (by simp)
        simpa using this
      have hrest := ih (j0 + 1) (fun b hb => hsplit b (List.mem_cons_of_mem a hb))
        (fun i hi => by
          have he : j0 + 1 + i = j0 + (i + 1) := by omega
          rw [he]
          exact hup (i + 1) (by simpa using Nat.succ_lt_succ hi))
      have hopt2 : (splitOnChar ',' a.base64Content.data)[1]? = some b64 := by
        rw [← List.get?_eq_getElem?]
        exact hopt
      simp [processAttachments, hopt, hopt2, hu, hrest, expectedAttachmentCalls]

theorem processAttachments_index_error (b64decode : String → List Nat)
    (uploadRes : Nat → Except MigrationError String) (urls : Nat → String)
    (workItemId : Int) :
    ∀ (pre : List SourceAttachment) (bad : SourceAttachment)
      (post : List SourceAttachment) (j0 : Nat),
      ',' ∉ bad.base64Content.data →
      (∀ a ∈ pre, ((splitOnChar ',' a.base64Content.data).get? 1).isSome) →
      (∀ i, i < pre.length → uploadRes (j0 + i) = Except.ok (urls (j0 + i))) →
      processAttachments b64decode uploadRes workItemId (pre ++ bad :: post) j0 =
        (expectedAttachmentCalls b64decode urls workItemId pre j0,
          some MigrationError.indexError) := by
  intro pre
  induction pre with
  | nil =>
    intro bad post j0 hbad _ _
    have hsp : (splitOnChar ',' bad.base64Content.data).get? 1 = none := by
      rw [splitOnChar_not_mem ',' bad.base64Content.data hbad]
      rfl
    simp only [List.nil_append, processAttachments, hsp, expectedAttachmentCalls]
  | cons a rest ih =>
    intro bad post j0 hbad hsplit hup
    have ha := hsplit a (List.mem_cons_self a rest)
    rcases hopt : (splitOnChar ',' a.base64Content.data).get? 1 with _ | b64
    · rw [hopt] at ha; simp at ha
    · have hu : uploadRes j0 = Except.ok (urls j0) := by
        have := hup 0 (by simp)
        simpa using this
      have hrest := ih bad post (j0 + 1)
        hbad (fun b hb => hsplit b (List.mem_cons_of_mem a hb))
        (fun i hi => by
          have he : j0 + 1 + i = j0 + (i + 1) := by omega
          rw [he]
          exact hup (i + 1) (by simpa using Nat.succ_lt_succ hi))
      have hopt2 : (splitOnChar ',' a.base64Content.data)[1]? = some b64 := by
        rw [← List.get?_eq_getElem?]
        exact hopt
      simp [List.cons_append, processAttachments, hopt, hopt2, hu, List.append_eq, hrest,
        expectedAttachmentCalls]

theorem processAttachments_upload_head (b64decode : String → List Nat)
    (uploadRes : Nat → Except MigrationError String) (urls : Nat → String)
    (workItemId : Int) :
    ∀ (pre : List SourceAttachment) (att : SourceAttachment)
      (post : List SourceAttachment) (j0 : Nat) (data : String),
      (splitOnChar ',' att.base64Content.data).get? 1 = some data.data →
      (∀ a ∈ pre, ((splitOnChar ',' a.base64Content.data).get? 1).isSome) →
      (∀ i, i < pre.length → uploadRes (j0 + i) = Except.ok (urls (j0 + i))) →
      ∃ rest,
        (processAttachments b64decode uploadRes workItemId (pre ++ att :: post) j0).1 =
          expectedAttachmentCalls b64decode urls workItemId pre j0 ++
            AdoCall.uploadAttachment (b64decode data) :: rest := by
  intro pre
  induction pre with
  | nil =>
    intro att post j0 data hsp _ _
    rcases hu : uploadRes j0 with e | url
    · refine ⟨[], ?_⟩
      simp only [List.nil_append, processAttachments, hsp, hu, expectedAttachmentCalls]
    · refine ⟨AdoCall.linkAttachment workItemId url att.name ::
        (processAttachments b64decode uploadRes workItemId post (j0 + 1)).1, ?_⟩
      simp only [List.nil_append, processAttachments, hsp, hu, expectedAttachmentCalls]
  | cons a rest ih =>
    intro att post j0 data hsp hsplit hup
    have ha := hsplit a (List.mem_cons_self a rest)
    rcases hopt : (splitOnChar ',' a.base64Content.data).get? 1 with _ | b64
    · rw [hopt] at ha; simp at ha
    · have hu : uploadRes j0 = Except.ok (urls j0) := by
        have := hup 0 (by simp)
        simpa using this
      obtain ⟨tail, htail⟩ := ih att post (j0 + 1) data hsp
        (fun b hb => hsplit b (List.mem_cons_of_mem a hb))
        (fun i hi => by
          have he : j0 + 1 + i = j0 + (i + 1) := by omega
          rw [he]
          exact hup (i + 1) (by simpa using Nat.succ_lt_succ hi))
      refine ⟨tail, ?_⟩
      simp only [List.cons_append, processAttachments, hopt, hu, expectedAttachmentCalls]
      simp [htail]

/-! ### Lemmas about the retry loops -/

theorem retryIssueLoop_migrated (attempt : Nat → Option MigrationError) :
    ∀ (k fuel k0 w : Nat),
      (∀ j, j < k → attempt (k0 + j) = some MigrationError.jsonDecodeError) →
      k < fuel → attempt (k0 + k) = none →
      retryIssueLoop attempt fuel k0 w = IssueLoopResult.migrated (w + 3 * k) := by
  intro k
  induction k with
  | zero =>
    intro fuel k0 w _ hf h0
    cases fuel with
    | zero => omega
    | succ f =>
      have h0' : attempt k0 = none := by simpa using h0
      simp [retryIssueLoop, h0']
  | succ k ih =>
    intro fuel k0 w hdec hf h0
    cases fuel with
    | zero => omega
    | succ f =>
      have ha : attempt k0 = some MigrationError.jsonDecodeError := by
        have := hdec 0 (by omega)
        simpa using this
      have hstep := ih f (k0 + 1) (w + 3)
        (fun j hj => by
          have he : k0 + 1 + j = k0 + (j + 1) := by omega
          rw [he]
          exact hdec (j + 1) (by omega))
        (by omega)
        (by
          have he : k0 + 1 + k = k0 + (k + 1) := by omega
          rw [he]
          exact h0)
      simp only [retryIssueLoop, ha, retriedByDriver, if_true, hstep]
      have : w + 3 + 3 * k = w + 3 * (k + 1) := by ring
      rw [this]

theorem retryIssueLoop_failed (attempt : Nat → Option MigrationError) :
    ∀ (k fuel k0 w : Nat) (e : MigrationError),
      (∀ j, j < k → attempt (k0 + j) = some MigrationError.jsonDecodeError) →
      k < fuel → attempt (k0 + k) = some e → retriedByDriver e = false →
      retryIssueLoop attempt fuel k0 w = IssueLoopResult.failed e (w + 3 * k) := by
  intro k
  induction k with
  | zero =>
    intro fuel k0 w e _ hf h0 hne
    cases fuel with
    | zero => omega
    | succ f =>
      have h0' : attempt k0 = some e := by simpa using h0
      simp [retryIssueLoop, h0', hne]
  | succ k ih =>
    intro fuel k0 w e hdec hf h0 hne
    cases fuel with
    | zero => omega
    | succ f =>
      have ha : attempt k0 = some MigrationError.jsonDecodeError := by
        have := hdec 0 (by omega)
        simpa using this
      have hstep := ih f (k0 + 1) (w + 3) e
        (fun j hj => by
          have he : k0 + 1 + j = k0 + (j + 1) := by omega
          rw [he]
          exact hdec (j + 1) (by omega))
        (by omega)
        (by
          have he : k0 + 1 + k = k0 + (k + 1) := by omega
          rw [he]
          exact h0)
        hne
      simp only [retryIssueLoop, ha, retriedByDriver, if_true, hstep]
      have : w + 3 + 3 * k = w + 3 * (k + 1) := by ring
      rw [this]

theorem retryIssueLoop_unbounded (attempt : Nat → Option MigrationError)
    (h : ∀ j, attempt j = some MigrationError.jsonDecodeError) :
    ∀ (fuel k0 w : Nat),
      retryIssueLoop attempt fuel k0 w = IssueLoopResult.stillRetrying (w + 3 * fuel) := by
  intro fuel
  induction fuel with
  | zero => intro k0 w; simp [retryIssueLoop]
  | succ f ih =>
    intro k0 w
    simp only [retryIssueLoop, h k0, retriedByDriver, if_true, ih (k0 + 1) (w + 3)]
    have : w + 3 + 3 * f = w + 3 * (f + 1) := by ring
    rw [this]

/-- Sum of `k` over the index window `[i0, i0 + n)`: total number of
decode-error retries across a run segment. -/
def sumWaits (k : Nat → Nat) : Nat → Nat → Nat
  | _, 0 => 0
  | i0, n + 1 => k i0 + sumWaits k (i0 + 1) n

theorem migrateProjectLoop_completed (o : Nat → Nat → Option MigrationError)
    (fuel : Nat) (k : Nat → Nat) :
    ∀ (issues : List String) (i0 : Nat) (acc : List String) (w : Nat),
      (∀ i, i < issues.length → ∀ j, j < k (i0 + i) →
        o (i0 + i) j = some MigrationError.jsonDecodeError) →
      (∀ i, i < issues.length → k (i0 + i) < fuel) →
      (∀ i, i < issues.length → o (i0 + i) (k (i0 + i)) = none) →
      migrateProjectLoop o fuel issues i0 acc w =
        ProjectResult.completed (acc ++ issues) (w + 3 * sumWaits k i0 issues.length) := by
  intro issues
  induction issues with
  | nil => intro i0 acc w _ _ _; simp [migrateProjectLoop, sumWaits]
  | cons yid rest ih =>
    intro i0 acc w hdec hfuel hok
    have hloop := retryIssueLoop_migrated (o i0) (k i0) fuel 0 0
      (fun j hj => by simpa using hdec 0 (by simp) j (by simpa using hj))
      (by simpa using hfuel 0 (by simp))
      (by simpa using hok 0 (by simp))
    have hrest := ih (i0 + 1) (acc ++ [yid]) (w + (0 + 3 * k i0))
      (fun i hi j hj => by
        have he : i0 + 1 + i = i0 + (i + 1) := by omega
        rw [he] at hj ⊢
        exact hdec (i + 1) (by simpa using Nat.succ_lt_succ hi) j hj)
      (fun i hi => by
        have he : i0 + 1 + i = i0 + (i + 1) := by omega
        rw [he]
        exact hfuel (i + 1) (by simpa using Nat.succ_lt_succ hi))
      (fun i hi => by
        have he : i0 + 1 + i = i0 + (i + 1) := by omega
        rw [he]
        exact hok (i + 1) (by simpa using Nat.succ_lt_succ hi))
    simp only [migrateProjectLoop, hloop, hrest]
    have h1 : acc ++ [yid] ++ rest = acc ++ yid :: rest := by simp
    have h2 : w + (0 + 3 * k i0) + 3 * sumWaits k (i0 + 1) rest.length =
        w + 3 * sumWaits k i0 (yid :: rest).length := by
      simp only [List.length_cons, sumWaits]
      ring
    rw [h1, h2]

theorem migrateProjectLoop_aborted (o : Nat → Nat → Option MigrationError)
    (fuel : Nat) (k : Nat → Nat) :
    ∀ (issues : List String) (i0 : Nat) (acc : List String) (w : Nat)
      (jf : Nat) (e : MigrationError),
      jf < issues.length →
      (∀ i, i < issues.length → ∀ j, j < k (i0 + i) →
        o (i0 + i) j = some MigrationError.jsonDecodeError) →
      (∀ i, i < issues.length → k (i0 + i) < fuel) →
      (∀ i, i < jf → o (i0 + i) (k (i0 + i)) = none) →
      o (i0 + jf) (k (i0 + jf)) = some e →
      retriedByDriver e = false →
      migrateProjectLoop o fuel issues i0 acc w =
        ProjectResult.aborted (acc ++ issues.take jf)
          (w + 3 * sumWaits k i0 (jf + 1)) e := by
  intro issues
  induction issues with
  | nil => intro i0 acc w jf e hjf _ _ _ _ _; simp at hjf
  | cons yid rest ih =>
    intro i0 acc w jf e hjf hdec hfuel hok hfail hne
    cases jf with
    | zero =>
      have hloop := retryIssueLoop_failed (o i0) (k i0) fuel 0 0 e
        (fun j hj => by simpa using hdec 0 (by simp) j (by simpa using hj))
        (by simpa using hfuel 0 (by simp))
        (by simpa using hfail)
        hne
      simp only [migrateProjectLoop, hloop]
      simp [sumWaits]
    | succ jf' =>
      have hloop := retryIssueLoop_migrated (o i0) (k i0) fuel 0 0
        (fun j hj => by simpa using hdec 0 (by simp) j (by simpa using hj))
        (by simpa using hfuel 0 (by simp))
        (by simpa using hok 0 (by omega))
      have hrest := ih (i0 + 1) (acc ++ [yid]) (w + (0 + 3 * k i0)) jf' e
        (by simpa using Nat.lt_of_succ_lt_succ hjf)
        (fun i hi j hj => by
          have he : i0 + 1 + i = i0 + (i + 1) := by omega
          rw [he] at hj ⊢
          exact hdec (i + 1) (by simpa using Nat.succ_lt_succ hi) j hj)
        (fun i hi => by
          have he : i0 + 1 + i = i0 + (i + 1) := by omega
          rw [he]
          exact hfuel (i + 1) (by simpa using Nat.succ_lt_succ hi))
        (fun i hi => by
          have he : i0 + 1 + i = i0 + (i + 1) := by omega
          rw [he]
          exact hok (i + 1) (by omega))
        (by
          have he : i0 + 1 + jf' = i0 + (jf' + 1) := by omega
          rw [he]
          exact hfail)
        hne
      simp only [migrateProjectLoop, hloop, hrest]
      have h1 : acc ++ [yid] ++ rest.take jf' = acc ++ (yid :: rest).take (jf' + 1) := by
        simp
      have h2 : w + (0 + 3 * k i0) + 3 * sumWaits k (i0 + 1) (jf' + 1) =
          w + 3 * sumWaits k i0 (jf' + 1 + 1) := by
        simp only [sumWaits]
        ring
      rw [h1, h2]

/-! ### Lemmas about the synthesized provenance texts -/

theorem no_nl_append (s t : String) (hs : '\n' ∉ s.data) (ht : '\n' ∉ t.data) :
    '\n' ∉ (s ++ t).data := by
  rw [String.data_append]
  intro hm
  rcases List.mem_append.mp hm with h | h
  · exact hs h
  · exact ht h

theorem descriptionHeader_no_newline (yt_base yt_id reporter created : String)
    (hb : '\n' ∉ yt_base.data) (hi : '\n' ∉ yt_id.data)
    (hr : '\n' ∉ reporter.data) (hc : '\n' ∉ created.data) :
    '\n' ∉ (descriptionHeader yt_base yt_id reporter created).data := by
  unfold descriptionHeader
  exact no_nl_append _ _ (no_nl_append _ _ (no_nl_append _ _ (no_nl_append _ _
    (no_nl_append _ _ (no_nl_append _ _ (no_nl_append _ _ (no_nl_append _ _
      (by decide) hb) (by decide)) hi) (by decide)) hr) (by decide)) hc) (by decide)

theorem commentHeader_no_newline (yt_base yt_id author created : String)
    (hb : '\n' ∉ yt_base.data) (hi : '\n' ∉ yt_id.data)
    (ha : '\n' ∉ author.data) (hc : '\n' ∉ created.data) :
    '\n' ∉ (commentHeader yt_base yt_id author created).data := by
  unfold commentHeader
  exact no_nl_append _ _ (no_nl_append _ _ (no_nl_append _ _ (no_nl_append _ _
    (no_nl_append _ _ (no_nl_append _ _ (no_nl_append _ _ (no_nl_append _ _
      (by decide) hb) (by decide)) hi) (by decide)) ha) (by decide)) hc) (by decide)

theorem pyRep_double_newline (nw : List Char) :
    pyRep ['\n'] nw ['\n', '\n'] = nw ++ nw := by
  rw [pyRep_cons_pos ['\n'] nw '\n' ['\n'] (by simp [List.isPrefixOf]) (by simp)]
  simp only [List.length_cons, List.length_nil, Nat.zero_add, Nat.sub_self, List.drop_zero]
  rw [pyRep_cons_pos ['\n'] nw '\n' [] (by simp [List.isPrefixOf]) (by simp)]
  simp [pyRep_nil]

theorem descriptionText_data (yt_base yt_id reporter created body : String)
    (hh : '\n' ∉ (descriptionHeader yt_base yt_id reporter created).data) :
    (descriptionText yt_base yt_id reporter created body).data =
      (descriptionHeader yt_base yt_id reporter created).data ++
        ("<br />\n".data ++ "<br />\n".data ++ pyRep ['\n'] "<br />\n".data body.data) := by
  show pyRep "\n".data "<br />\n".data
      ((descriptionHeader yt_base yt_id reporter created ++ "\n\n" ++ body).data) = _
  rw [String.data_append, String.data_append]
  show pyRep ['\n'] "<br />\n".data
      ((descriptionHeader yt_base yt_id reporter created).data ++ ['\n', '\n'] ++ body.data) = _
  rw [pyRep_single_append '\n' "<br />\n".data
      ((descriptionHeader yt_base yt_id reporter created).data ++ ['\n', '\n']) body.data,
    pyRep_single_append '\n' "<br />\n".data
      (descriptionHeader yt_base yt_id reporter created).data ['\n', '\n'],
    pyRep_single_not_mem '\n' "<br />\n".data _ hh,
    pyRep_double_newline "<br />\n".data]
  simp

theorem commentText_data (yt_base yt_id author created body : String)
    (hh : '\n' ∉ (commentHeader yt_base yt_id author created).data) :
    (commentText yt_base yt_id author created body).data =
      (commentHeader yt_base yt_id author created).data ++
        ("<br/>\n".data ++ "<br/>\n".data ++ pyRep ['\n'] "<br/>\n".data body.data) := by
  show pyRep "\n".data "<br/>\n".data
      ((commentHeader yt_base yt_id author created ++ "\n\n" ++ body).data) = _
  rw [String.data_append, String.data_append]
  show pyRep ['\n'] "<br/>\n".data
      ((commentHeader yt_base yt_id author created).data ++ ['\n', '\n'] ++ body.data) = _
  rw [pyRep_single_append '\n' "<br/>\n".data
      ((commentHeader yt_base yt_id author created).data ++ ['\n', '\n']) body.data,
    pyRep_single_append '\n' "<br/>\n".data
      (commentHeader yt_base yt_id author created).data ['\n', '\n'],
    pyRep_single_not_mem '\n' "<br/>\n".data _ hh,
    pyRep_double_newline "<br/>\n".data]
  simp

/-- Count of non-overlapping occurrences of `pat`, scanning left to right. -/
def countOccurF (pat : List Char) : Nat → List Char → Nat
  | _, [] => 0
  | 0, _ => 0
  | f + 1, c :: rest =>
    if pat.isPrefixOf (c :: rest) ∧ pat ≠ [] then
      1 + countOccurF pat f (rest.drop (pat.length - 1))
    else countOccurF pat f rest

/-- Count of non-overlapping occurrences of `pat` in `l`. -/
def countOccur (pat l : List Char) : Nat := countOccurF pat l.length l

/-! ### Projections of `migrateIssue` -/

theorem migrateIssue_fst (m : Migrator) (b64decode : String → List Nat) (yt_id : String)
    (custom_field_handler : List (String × String) → List SetFieldOperation)
    (yt_data : YTIssueData) (workItemId : Int) (raw : String)
    (uploadRes : Nat → Except MigrationError String) :
    (migrateIssue m b64decode yt_id custom_field_handler yt_data
        ⟨some workItemId, raw⟩ uploadRes).1 =
      AdoCall.createWorkItem (composedOps m yt_id custom_field_handler yt_data).1 ::
        AdoCall.patchWorkItem workItemId (composedOps m yt_id custom_field_handler yt_data).2 ::
        ((yt_data.comments.map fun c => AdoCall.postComment workItemId
          (commentText m.yt_base yt_id c.author (formatYtTimestamp c.created) c.text)) ++
          (processAttachments b64decode uploadRes workItemId yt_data.attachments 0).1) :=
  rfl

theorem migrateIssue_snd (m : Migrator) (b64decode : String → List Nat) (yt_id : String)
    (custom_field_handler : List (String × String) → List SetFieldOperation)
    (yt_data : YTIssueData) (workItemId : Int) (raw : String)
    (uploadRes : Nat → Except MigrationError String) :
    (migrateIssue m b64decode yt_id custom_field_handler yt_data
        ⟨some workItemId, raw⟩ uploadRes).2 =
      (match (processAttachments b64decode uploadRes workItemId yt_data.attachments 0).2 with
       | some e => Except.error e
       | none => Except.ok none) :=
  rfl

/-! ### Concrete fixtures used by witnesses and counterexamples -/

/-- A policy that returns no assignments. -/
def handler0 : List (String × String) → List SetFieldOperation := fun _ => []

/-- The issue of the spec scenario: `X-1`, zero comments, zero attachments. -/
def x1Data : YTIssueData :=
  { summary := "Fix crash", description := "Steps:\nDo A\nDo B",
    created := 1700000000000, reporter := "alice",
    customFields := [], comments := [], attachments := [] }

/-- A concrete migrator built without a YouTrack token. -/
def m0 : Migrator := mkMigrator "pat" "https://yt" "https://dev.azure.com/org" "proj" none

/-- A concrete stand-in for `base64.b64decode`. -/
def b64zero : String → List Nat := fun _ => []

/-- An upload-response oracle that always yields the same URL. -/
def okUpload : Nat → Except MigrationError String := fun _ => Except.ok "https://ado/att/1"

/-- The URLs returned by `okUpload`. -/
def urls1 : Nat → String := fun _ => "https://ado/att/1"

/-- A concrete issue with one comment and one attachment. -/
def sampleData : YTIssueData :=
  { summary := "S", description := "D", created := 0, reporter := "r",
    customFields := [⟨"Priority", "High"⟩],
    comments := [{ author := "bob", created := 1700000000000, text := "hi\nthere" }],
    attachments := [{ name := "f.txt", base64Content := "data:text/plain;base64,QUJD" }] }

/-- A concrete issue whose only attachment payload has no comma. -/
def badAttData : YTIssueData :=
  { summary := "S", description := "D", created := 0, reporter := "r",
    customFields := [], comments := [],
    attachments := [{ name := "b.bin", base64Content := "QUJD" }] }

/-- Attempt oracle for the driver witness: issue 0 decode-fails once. -/
def c5Oracle : Nat → Nat → Option MigrationError := fun i j =>
  if i = 0 ∧ j = 0 then some MigrationError.jsonDecodeError else none

/-- First non-decode attempt index per issue for `c5Oracle`. -/
def c5K : Nat → Nat := fun i => if i = 0 then 1 else 0

/-! ### The claims -/

/-- C1: for a source issue with N comments and M attachments, a run of
`migrate_issue` whose creation response contains an identifier issues exactly
1 work-item creation call, then exactly 1 deferred-patch call, then exactly N
comment-post calls in source comment order, and then for each of the M
attachments in source order exactly 1 attachment-upload call immediately
followed by 1 relation-link call addressed to the created identifier. -/
theorem migrate_issue_call_sequence (m : Migrator) (b64decode : String → List Nat)
    (yt_id : String)
    (custom_field_handler : List (String × String) → List SetFieldOperation)
    (yt_data : YTIssueData) (raw : String) (workItemId : Int)
    (uploadRes : Nat → Except MigrationError String) (urls : Nat → String)
    (hsplit : ∀ a ∈ yt_data.attachments,
      ((splitOnChar ',' a.base64Content.data).get? 1).isSome)
    (hup : ∀ i, i < yt_data.attachments.length → uploadRes i = Except.ok (urls i)) :
    migrateIssue m b64decode yt_id custom_field_handler yt_data
        ⟨some workItemId, raw⟩ uploadRes =
      (AdoCall.createWorkItem (composedOps m yt_id custom_field_handler yt_data).1 ::
        AdoCall.patchWorkItem workItemId (composedOps m yt_id custom_field_handler yt_data).2 ::
        ((yt_data.comments.map fun c => AdoCall.postComment workItemId
          (commentText m.yt_base yt_id c.author (formatYtTimestamp c.created) c.text)) ++
          expectedAttachmentCalls b64decode urls workItemId yt_data.attachments 0),
        Except.ok none) := by
  have hatt := processAttachments_ok b64decode uploadRes urls workItemId
    yt_data.attachments 0 hsplit (fun i hi => by simpa using hup i hi)
  have h1 := migrateIssue_fst m b64decode yt_id custom_field_handler yt_data
    workItemId raw uploadRes
  have h2 := migrateIssue_snd m b64decode yt_id custom_field_handler yt_data
    workItemId raw uploadRes
  rw [hatt] at h1 h2
  exact Prod.ext (by rw [h1]) (by rw [h2])

/-- Witness for C1 at a concrete issue with one comment and one attachment. -/
theorem migrate_issue_call_sequence_witness :
    migrateIssue m0 b64zero "Y-1" handler0 sampleData ⟨some 5, "raw"⟩ okUpload =
      (AdoCall.createWorkItem (composedOps m0 "Y-1" handler0 sampleData).1 ::
        AdoCall.patchWorkItem 5 (composedOps m0 "Y-1" handler0 sampleData).2 ::
        ((sampleData.comments.map fun c => AdoCall.postComment 5
          (commentText m0.yt_base "Y-1" c.author (formatYtTimestamp c.created) c.text)) ++
          expectedAttachmentCalls b64zero urls1 5 sampleData.attachments 0),
        Except.ok none) :=
  migrate_issue_call_sequence m0 b64zero "Y-1" handler0 sampleData "raw" 5 okUpload urls1
    (by decide) (fun i _ => rfl)

/-- C2 counterexample: a successful concrete run whose creation response
identifier is 7 does not return that identifier to the caller (the Python
function body has no `return` statement, so it returns `None`). -/
theorem migrate_issue_return_value_cex :
    (migrateIssue m0 b64zero "X-1" handler0 x1Data ⟨some 7, "raw"⟩ okUpload).2 ≠
      Except.ok (some 7) := by
  intro h
  have h0 : (migrateIssue m0 b64zero "X-1" handler0 x1Data ⟨some 7, "raw"⟩ okUpload).2 =
      Except.ok none := rfl
  rw [h0] at h
  simp at h

/-- C2 (amended): for every source issue whose migration completes all phases
without a fatal failure, `migrate_issue` returns `None` — the created
work-item identifier is not returned to the caller. -/
theorem migrate_issue_returns_none (m : Migrator) (b64decode : String → List Nat)
    (yt_id : String)
    (custom_field_handler : List (String × String) → List SetFieldOperation)
    (yt_data : YTIssueData) (raw : String) (workItemId : Int)
    (uploadRes : Nat → Except MigrationError String) (urls : Nat → String)
    (hsplit : ∀ a ∈ yt_data.attachments,
      ((splitOnChar ',' a.base64Content.data).get? 1).isSome)
    (hup : ∀ i, i < yt_data.attachments.length → uploadRes i = Except.ok (urls i)) :
    (migrateIssue m b64decode yt_id custom_field_handler yt_data
        ⟨some workItemId, raw⟩ uploadRes).2 = Except.ok none := by
  have hatt := processAttachments_ok b64decode uploadRes urls workItemId
    yt_data.attachments 0 hsplit (fun i hi => by simpa using hup i hi)
  have h2 := migrateIssue_snd m b64decode yt_id custom_field_handler yt_data
    workItemId raw uploadRes
  rw [hatt] at h2
  rw [h2]

/-- Witness for the amended C2. -/
theorem migrate_issue_returns_none_witness :
    (migrateIssue m0 b64zero "W-1" handler0 sampleData ⟨some 9, "raw"⟩ okUpload).2 =
      Except.ok none :=
  migrate_issue_returns_none m0 b64zero "W-1" handler0 sampleData "raw" 9 okUpload urls1
    (by decide) (fun i _ => rfl)

/-- C3: if the creation response lacks an identifier, `migrate_issue` fails
with the creation-failure error carrying the source identifier and the raw
response, after exactly the one creation call — zero deferred-patch, comment,
upload or link calls — and this error class is not retried by the driver. -/
theorem migrate_issue_creation_failed (m : Migrator) (b64decode : String → List Nat)
    (yt_id : String)
    (custom_field_handler : List (String × String) → List SetFieldOperation)
    (yt_data : YTIssueData) (raw : String)
    (uploadRes : Nat → Except MigrationError String) :
    migrateIssue m b64decode yt_id custom_field_handler yt_data ⟨none, raw⟩ uploadRes =
      ([AdoCall.createWorkItem (composedOps m yt_id custom_field_handler yt_data).1],
        Except.error (MigrationError.creationFailed yt_id raw)) ∧
    retriedByDriver (MigrationError.creationFailed yt_id raw) = false :=
  ⟨rfl, rfl⟩

/-- C4: every policy assignment flagged `set_after_creation = false` appears
in the creation call and every one flagged `true` in the deferred-patch call;
the two lists are the stable order-preserving partition of the policy output
(after the title and description assignments in the creation list). -/
theorem policy_partition (m : Migrator) (b64decode : String → List Nat)
    (yt_id : String)
    (custom_field_handler : List (String × String) → List SetFieldOperation)
    (yt_data : YTIssueData) (raw : String) (workItemId : Int)
    (uploadRes : Nat → Except MigrationError String) :
    (composedOps m yt_id custom_field_handler yt_data).1 =
      [setField "System.Title" yt_data.summary,
       setField "System.Description" (descriptionText m.yt_base yt_id yt_data.reporter
         (formatYtTimestamp yt_data.created) yt_data.description)] ++
        ((custom_field_handler (buildCustomFieldDict yt_data)).filter
          (fun o => !o.set_after_creation)).map (fun o => setField o.ado_field o.yt_field) ∧
    (composedOps m yt_id custom_field_handler yt_data).2 =
      ((custom_field_handler (buildCustomFieldDict yt_data)).filter
        (fun o => o.set_after_creation)).map (fun o => setField o.ado_field o.yt_field) ∧
    (migrateIssue m b64decode yt_id custom_field_handler yt_data ⟨some workItemId, raw⟩
        uploadRes).1.get? 0 =
      some (AdoCall.createWorkItem (composedOps m yt_id custom_field_handler yt_data).1) ∧
    (migrateIssue m b64decode yt_id custom_field_handler yt_data ⟨some workItemId, raw⟩
        uploadRes).1.get? 1 =
      some (AdoCall.patchWorkItem workItemId
        (composedOps m yt_id custom_field_handler yt_data).2) := by
  refine ⟨?_, ?_, rfl, rfl⟩
  · rw [composedOps, partitionOps_eq]
  · rw [composedOps, partitionOps_eq]
    simp

/-- C5: the driver processes listed identifiers in order; a decode error in a
per-issue migration causes a fixed 3-unit wait and an unbounded retry of the
same issue (never skipping or duplicating an identifier); any other failure
aborts the whole project run. `k i` is the first attempt index at which issue
`i` does not raise a decode error; part three shows that when every attempt
decode-fails the loop is still retrying after any number of attempts. -/
theorem migrate_project_retry_behavior (o : Nat → Nat → Option MigrationError)
    (issues : List String) (fuel : Nat) (k : Nat → Nat)
    (hdec : ∀ i, i < issues.length → ∀ j, j < k i →
      o i j = some MigrationError.jsonDecodeError)
    (hfuel : ∀ i, i < issues.length → k i < fuel) :
    ((∀ i, i < issues.length → o i (k i) = none) →
      migrateProjectRun issues o fuel =
        ProjectResult.completed issues (3 * sumWaits k 0 issues.length)) ∧
    (∀ jf e, jf < issues.length → (∀ i, i < jf → o i (k i) = none) →
      o jf (k jf) = some e → retriedByDriver e = false →
      migrateProjectRun issues o fuel =
        ProjectResult.aborted (issues.take jf) (3 * sumWaits k 0 (jf + 1)) e) ∧
    (∀ (yid : String) (rest : List String) (f : Nat),
      issues = yid :: rest → (∀ j, o 0 j = some MigrationError.jsonDecodeError) →
      migrateProjectRun issues o f = ProjectResult.interrupted [] (3 * f)) := by
  refine ⟨?_, ?_, ?_⟩
  · intro hok
    have h := migrateProjectLoop_completed o fuel k issues 0 [] 0
      (fun i hi j hj => by
        rw [Nat.zero_add] at hj ⊢
        exact hdec i hi j hj)
      (fun i hi => by rw [Nat.zero_add]; exact hfuel i hi)
      (fun i hi => by rw [Nat.zero_add]; exact hok i hi)
    simpa [migrateProjectRun] using h
  · intro jf e hjf hok hfail hne
    have h := migrateProjectLoop_aborted o fuel k issues 0 [] 0 jf e hjf
      (fun i hi j hj => by
        rw [Nat.zero_add] at hj ⊢
        exact hdec i hi j hj)
      (fun i hi => by rw [Nat.zero_add]; exact hfuel i hi)
      (fun i hi => by rw [Nat.zero_add]; exact hok i hi)
      (by rw [Nat.zero_add]; exact hfail)
      hne
    simpa [migrateProjectRun] using h
  · rintro yid rest f rfl hall
    have hloop := retryIssueLoop_unbounded (o 0) hall f 0 0
    simp [migrateProjectRun, migrateProjectLoop, hloop]

/-- Witness for C5: two issues, the first decode-failing once, complete in
order with one 3-unit wait. -/
theorem migrate_project_retry_behavior_witness :
    migrateProjectRun ["A-1", "A-2"] c5Oracle 2 =
      ProjectResult.completed ["A-1", "A-2"] (3 * sumWaits c5K 0 2) :=
  (migrate_project_retry_behavior c5Oracle ["A-1", "A-2"] 2 c5K
    (by decide) (by decide)).1 (by decide)

/-- C10: the YouTrack requests issued by `migrate_issue`/`custom_fields`
(via `_youtrack_issue_data`) and by `migrate_project` carry an
`Authorization` header exactly when a non-`None`, non-empty token was given
to the constructor, and an empty-string token yields the same migrator state
as no token at all. -/
theorem youtrack_auth_header (token_azdo yt_base ado_organization ado_project : String)
    (token_youtrack : Option String) (yt_id yt_project : String) (limit : Nat) :
    (∀ t, token_youtrack = some t → t ≠ "" →
      (youtrackIssueRequest
          (mkMigrator token_azdo yt_base ado_organization ado_project token_youtrack)
          yt_id).headers = [("Authorization", "Bearer " ++ t)] ∧
      (projectIssuesRequest
          (mkMigrator token_azdo yt_base ado_organization ado_project token_youtrack)
          yt_project limit).headers = [("Authorization", "Bearer " ++ t)]) ∧
    (token_youtrack = none ∨ token_youtrack = some "" →
      (youtrackIssueRequest
          (mkMigrator token_azdo yt_base ado_organization ado_project token_youtrack)
          yt_id).headers = [] ∧
      (projectIssuesRequest
          (mkMigrator token_azdo yt_base ado_organization ado_project token_youtrack)
          yt_project limit).headers = []) ∧
    mkMigrator token_azdo yt_base ado_organization ado_project (some "") =
      mkMigrator token_azdo yt_base ado_organization ado_project none := by
  refine ⟨?_, ?_, rfl⟩
  · rintro t rfl ht
    constructor <;>
      simp [youtrackIssueRequest, projectIssuesRequest, youtrackHeaders, mkMigrator,
        authorizationHeaderYoutrack, ht]
  · rintro (rfl | rfl) <;>
      exact ⟨rfl, rfl⟩

/-- Witness for C10: a supplied token produces the bearer header, the empty
token produces the same state as no token. -/
theorem youtrack_auth_header_witness :
    (youtrackIssueRequest (mkMigrator "pat" "https://yt" "org" "proj" (some "tok"))
        "X-1").headers = [("Authorization", "Bearer " ++ "tok")] ∧
    (youtrackIssueRequest (mkMigrator "pat" "https://yt" "org" "proj" none)
        "X-1").headers = [] ∧
    mkMigrator "pat" "https://yt" "org" "proj" (some "") =
      mkMigrator "pat" "https://yt" "org" "proj" none := by
  refine ⟨?_, ?_, ?_⟩
  · exact ((youtrack_auth_header "pat" "https://yt" "org" "proj" (some "tok") "X-1" "P"
      10000).1 "tok" rfl (by decide)).1
  · exact ((youtrack_auth_header "pat" "https://yt" "org" "proj" none "X-1" "P"
      10000).2.1 (Or.inl rfl)).1
  · exact (youtrack_auth_header "pat" "https://yt" "org" "proj" none "X-1" "P"
      10000).2.2

/-- C6 counterexample: in the X-1 scenario the successful run issues two
calls — the creation call and then the (empty) deferred-patch call — not just
the single creation call the claim asserts. -/
theorem x1_scenario_cex :
    (migrateIssue m0 b64zero "X-1" handler0 x1Data ⟨some 42, "raw"⟩ okUpload).1.length ≠ 1 := by
  decide

/-- C6 (amended): in the X-1 scenario, `migrate_issue` makes exactly one
creation call (title `"Fix crash"`, description starting with a provenance
line referencing `alice` and the ISO date `2023-11-14T22:13:20`, body part
containing exactly two `<br />` line-break markers) followed by exactly one
deferred-patch call with an empty operation list, and no further calls. -/
theorem x1_scenario (m : Migrator) (b64decode : String → List Nat)
    (workItemId : Int) (raw : String) (uploadRes : Nat → Except MigrationError String)
    (hb : '\n' ∉ m.yt_base.data) :
    (migrateIssue m b64decode "X-1" handler0 x1Data ⟨some workItemId, raw⟩ uploadRes).1 =
      [AdoCall.createWorkItem
        [setField "System.Title" "Fix crash",
         setField "System.Description"
           (descriptionText m.yt_base "X-1" "alice" (formatYtTimestamp 1700000000000)
             "Steps:\nDo A\nDo B")],
       AdoCall.patchWorkItem workItemId []] ∧
    formatYtTimestamp 1700000000000 = "2023-11-14T22:13:20" ∧
    (descriptionText m.yt_base "X-1" "alice" "2023-11-14T22:13:20"
        "Steps:\nDo A\nDo B").data =
      (descriptionHeader m.yt_base "X-1" "alice" "2023-11-14T22:13:20").data ++
        "<br />\n<br />\nSteps:<br />\nDo A<br />\nDo B".data ∧
    "alice".data <:+:
      (descriptionHeader m.yt_base "X-1" "alice" "2023-11-14T22:13:20").data ∧
    "2023-11-14T22:13:20".data <:+:
      (descriptionHeader m.yt_base "X-1" "alice" "2023-11-14T22:13:20").data ∧
    countOccur "<br />".data "Steps:<br />\nDo A<br />\nDo B".data = 2 := by
  have hh := descriptionHeader_no_newline m.yt_base "X-1" "alice" "2023-11-14T22:13:20"
    hb (by decide) (by decide) (by decide)
  refine ⟨rfl, by decide, ?_, ?_, ?_, by decide⟩
  · rw [descriptionText_data m.yt_base "X-1" "alice" "2023-11-14T22:13:20"
      "Steps:\nDo A\nDo B" hh]
    congr 1
  · refine ⟨"[Migrated from <a href=\"".data ++ m.yt_base.data ++ "/issue/".data ++
      "X-1".data ++ "\">YouTrack</a>, originally reported by ".data,
      " on ".data ++ "2023-11-14T22:13:20".data ++ "]".data, ?_⟩
    simp [descriptionHeader, String.data_append, List.append_assoc]
  · refine ⟨"[Migrated from <a href=\"".data ++ m.yt_base.data ++ "/issue/".data ++
      "X-1".data ++ "\">YouTrack</a>, originally reported by ".data ++ "alice".data ++
      " on ".data, "]".data, ?_⟩
    simp [descriptionHeader, String.data_append, List.append_assoc]

/-- Witness for the amended C6 at the concrete migrator `m0`. -/
theorem x1_scenario_witness :
    (migrateIssue m0 b64zero "X-1" handler0 x1Data ⟨some 43, "raw"⟩ okUpload).1 =
      [AdoCall.createWorkItem
        [setField "System.Title" "Fix crash",
         setField "System.Description"
           (descriptionText m0.yt_base "X-1" "alice" (formatYtTimestamp 1700000000000)
             "Steps:\nDo A\nDo B")],
       AdoCall.patchWorkItem 43 []] :=
  (x1_scenario m0 b64zero 43 "raw" okUpload (by decide)).1

/-- C7: the synthesized description and comment texts contain a link back to
the source issue, the original author login, the rendered creation date, and
the original body with every newline expanded to the line-break marker; and
replacing the markers back with newlines and stripping the provenance header
(header plus the blank line) recovers the original body exactly. -/
theorem provenance_roundtrip (yt_base yt_id reporter author created body ctext : String)
    (hb : '\n' ∉ yt_base.data) (hi : '\n' ∉ yt_id.data)
    (hr : '\n' ∉ reporter.data) (ha : '\n' ∉ author.data) (hc : '\n' ∉ created.data) :
    ((yt_base ++ "/issue/" ++ yt_id).data <:+:
      (descriptionText yt_base yt_id reporter created body).data) ∧
    (reporter.data <:+: (descriptionText yt_base yt_id reporter created body).data) ∧
    (created.data <:+: (descriptionText yt_base yt_id reporter created body).data) ∧
    (pyRep ['\n'] "<br />\n".data body.data <:+:
      (descriptionText yt_base yt_id reporter created body).data) ∧
    ((pyRep "<br />\n".data ['\n']
        (descriptionText yt_base yt_id reporter created body).data).drop
      ((descriptionHeader yt_base yt_id reporter created).data.length + 2) = body.data) ∧
    ((yt_base ++ "/issue/" ++ yt_id).data <:+:
      (commentText yt_base yt_id author created ctext).data) ∧
    (author.data <:+: (commentText yt_base yt_id author created ctext).data) ∧
    (created.data <:+: (commentText yt_base yt_id author created ctext).data) ∧
    (pyRep ['\n'] "<br/>\n".data ctext.data <:+:
      (commentText yt_base yt_id author created ctext).data) ∧
    ((pyRep "<br/>\n".data ['\n']
        (commentText yt_base yt_id author created ctext).data).drop
      ((commentHeader yt_base yt_id author created).data.length + 2) = ctext.data) := by
  have hhd := descriptionHeader_no_newline yt_base yt_id reporter created hb hi hr hc
  have hhc := commentHeader_no_newline yt_base yt_id author created hb hi ha hc
  have hd := descriptionText_data yt_base yt_id reporter created body hhd
  have hcm := commentText_data yt_base yt_id author created ctext hhc
  refine ⟨?_, ?_, ?_, ?_, ?_, ?_, ?_, ?_, ?_, ?_⟩
  · rw [hd]
    refine ⟨"[Migrated from <a href=\"".data,
      "\">YouTrack</a>, originally reported by ".data ++ reporter.data ++ " on ".data ++
        created.data ++ "]".data ++
        ("<br />\n".data ++ "<br />\n".data ++ pyRep ['\n'] "<br />\n".data body.data), ?_⟩
    simp [descriptionHeader, String.data_append, List.append_assoc]
  · rw [hd]
    refine ⟨"[Migrated from <a href=\"".data ++ yt_base.data ++ "/issue/".data ++
        yt_id.data ++ "\">YouTrack</a>, originally reported by ".data,
      " on ".data ++ created.data ++ "]".data ++
        ("<br />\n".data ++ "<br />\n".data ++ pyRep ['\n'] "<br />\n".data body.data), ?_⟩
    simp [descriptionHeader, String.data_append, List.append_assoc]
  · rw [hd]
    refine ⟨"[Migrated from <a href=\"".data ++ yt_base.data ++ "/issue/".data ++
        yt_id.data ++ "\">YouTrack</a>, originally reported by ".data ++ reporter.data ++
        " on ".data,
      "]".data ++
        ("<br />\n".data ++ "<br />\n".data ++ pyRep ['\n'] "<br />\n".data body.data), ?_⟩
    simp [descriptionHeader, String.data_append, List.append_assoc]
  · rw [hd]
    refine ⟨(descriptionHeader yt_base yt_id reporter created).data ++
      "<br />\n".data ++ "<br />\n".data, [], ?_⟩
    simp [List.append_assoc]
  · have harg : (descriptionText yt_base yt_id reporter created body).data =
        pyRep ['\n'] "<br />\n".data
          (((descriptionHeader yt_base yt_id reporter created).data ++ "\n\n".data) ++
            body.data) := by
      show pyRep "\n".data "<br />\n".data
          ((descriptionHeader yt_base yt_id reporter created ++ "\n\n" ++ body).data) = _
      rw [String.data_append, String.data_append]
    rw [harg]
    have e2 : ("<br />\n".data : List Char) = "<br />".data ++ ['\n'] := by decide
    rw [e2, pyRep_roundtrip "<br />".data (by decide) (by decide)]
    have hlen : (descriptionHeader yt_base yt_id reporter created).data.length + 2 =
        ((descriptionHeader yt_base yt_id reporter created).data ++ "\n\n".data).length := by
      rw [List.length_append]
      rfl
    rw [hlen, List.drop_left]
  · rw [hcm]
    refine ⟨"[Migrated from <a href=\"".data,
      "\">YouTrack</a>. Original comment by ".data ++ author.data ++ " on ".data ++
        created.data ++ "]".data ++
        ("<br/>\n".data ++ "<br/>\n".data ++ pyRep ['\n'] "<br/>\n".data ctext.data), ?_⟩
    simp [commentHeader, String.data_append, List.append_assoc]
  · rw [hcm]
    refine ⟨"[Migrated from <a href=\"".data ++ yt_base.data ++ "/issue/".data ++
        yt_id.data ++ "\">YouTrack</a>. Original comment by ".data,
      " on ".data ++ created.data ++ "]".data ++
        ("<br/>\n".data ++ "<br/>\n".data ++ pyRep ['\n'] "<br/>\n".data ctext.data), ?_⟩
    simp [commentHeader, String.data_append, List.append_assoc]
  · rw [hcm]
    refine ⟨"[Migrated from <a href=\"".data ++ yt_base.data ++ "/issue/".data ++
        yt_id.data ++ "\">YouTrack</a>. Original comment by ".data ++ author.data ++
        " on ".data,
      "]".data ++
        ("<br/>\n".data ++ "<br/>\n".data ++ pyRep ['\n'] "<br/>\n".data ctext.data), ?_⟩
    simp [commentHeader, String.data_append, List.append_assoc]
  · rw [hcm]
    refine ⟨(commentHeader yt_base yt_id author created).data ++
      "<br/>\n".data ++ "<br/>\n".data, [], ?_⟩
    simp [List.append_assoc]
  · have harg : (commentText yt_base yt_id author created ctext).data =
        pyRep ['\n'] "<br/>\n".data
          (((commentHeader yt_base yt_id author created).data ++ "\n\n".data) ++
            ctext.data) := by
      show pyRep "\n".data "<br/>\n".data
          ((commentHeader yt_base yt_id author created ++ "\n\n" ++ ctext).data) = _
      rw [String.data_append, String.data_append]
    rw [harg]
    have e2 : ("<br/>\n".data : List Char) = "<br/>".data ++ ['\n'] := by decide
    rw [e2, pyRep_roundtrip "<br/>".data (by decide) (by decide)]
    have hlen : (commentHeader yt_base yt_id author created).data.length + 2 =
        ((commentHeader yt_base yt_id author created).data ++ "\n\n".data).length := by
      rw [List.length_append]
      rfl
    rw [hlen, List.drop_left]

/-- Witness for C7: the description round trip at concrete inputs. -/
theorem provenance_roundtrip_witness :
    (pyRep "<br />\n".data ['\n']
        (descriptionText "https://yt" "X-9" "alice" "2024-01-02T03:04:05" "a\nb").data).drop
      ((descriptionHeader "https://yt" "X-9" "alice" "2024-01-02T03:04:05").data.length + 2) =
      "a\nb".data :=
  (provenance_roundtrip "https://yt" "X-9" "alice" "bob" "2024-01-02T03:04:05" "a\nb" "c\nd"
    (by decide) (by decide) (by decide) (by decide) (by decide)).2.2.2.2.1

/-- C8: for an attachment whose base64 payload has the data-URI shape
`<meta>,<base64>`, the uploaded bytes are `b64decode` applied to exactly the
substring after the first comma. -/
theorem attachment_data_uri_split (m : Migrator) (b64decode : String → List Nat)
    (yt_id : String)
    (custom_field_handler : List (String × String) → List SetFieldOperation)
    (yt_data : YTIssueData) (raw : String) (workItemId : Int)
    (uploadRes : Nat → Except MigrationError String) (urls : Nat → String)
    (pre post : List SourceAttachment) (att : SourceAttachment) (meta data : String)
    (hatt : yt_data.attachments = pre ++ att :: post)
    (hpayload : att.base64Content = meta ++ "," ++ data)
    (hmeta : ',' ∉ meta.data) (hdata : ',' ∉ data.data)
    (hsplit : ∀ a ∈ pre, ((splitOnChar ',' a.base64Content.data).get? 1).isSome)
    (hup : ∀ i, i < pre.length → uploadRes i = Except.ok (urls i)) :
    ∃ rest,
      (migrateIssue m b64decode yt_id custom_field_handler yt_data
          ⟨some workItemId, raw⟩ uploadRes).1 =
        AdoCall.createWorkItem (composedOps m yt_id custom_field_handler yt_data).1 ::
          AdoCall.patchWorkItem workItemId
            (composedOps m yt_id custom_field_handler yt_data).2 ::
          ((yt_data.comments.map fun c => AdoCall.postComment workItemId
            (commentText m.yt_base yt_id c.author (formatYtTimestamp c.created) c.text)) ++
            (expectedAttachmentCalls b64decode urls workItemId pre 0 ++
              AdoCall.uploadAttachment (b64decode data) :: rest)) := by
  have hcd : att.base64Content.data = meta.data ++ ',' :: data.data := by
    rw [hpayload]
    have hcomma : (",".data : List Char) = [','] := rfl
    simp [String.data_append, hcomma]
  have hspl : (splitOnChar ',' att.base64Content.data).get? 1 = some data.data := by
    rw [hcd]
    exact splitOnChar_get1 meta.data data.data hmeta hdata
  obtain ⟨rest, hrest⟩ := processAttachments_upload_head b64decode uploadRes urls
    workItemId pre att post 0 data hspl hsplit (fun i hi => by simpa using hup i hi)
  refine ⟨rest, ?_⟩
  rw [migrateIssue_fst, hatt, hrest]

/-- Witness for C8 at the concrete one-attachment issue. -/
theorem attachment_data_uri_split_witness :
    ∃ rest,
      (migrateIssue m0 b64zero "Y-1" handler0 sampleData ⟨some 5, "raw"⟩ okUpload).1 =
        AdoCall.createWorkItem (composedOps m0 "Y-1" handler0 sampleData).1 ::
          AdoCall.patchWorkItem 5 (composedOps m0 "Y-1" handler0 sampleData).2 ::
          ((sampleData.comments.map fun c => AdoCall.postComment 5
            (commentText m0.yt_base "Y-1" c.author (formatYtTimestamp c.created) c.text)) ++
            (expectedAttachmentCalls b64zero urls1 5 [] 0 ++
              AdoCall.uploadAttachment (b64zero "QUJD") :: rest)) :=
  attachment_data_uri_split m0 b64zero "Y-1" handler0 sampleData "raw" 5 okUpload urls1
    [] [] { name := "f.txt", base64Content := "data:text/plain;base64,QUJD" }
    "data:text/plain;base64" "QUJD" rfl (by decide) (by decide) (by decide)
    (by intro a h; cases h) (fun i hi => by cases hi)

/-- C9: an attachment whose base64 payload contains no comma makes the
decode step fail with an out-of-range index error — the raw payload is not
decoded, and no upload or link call is made for that attachment. -/
theorem attachment_without_comma (m : Migrator) (b64decode : String → List Nat)
    (yt_id : String)
    (custom_field_handler : List (String × String) → List SetFieldOperation)
    (yt_data : YTIssueData) (raw : String) (workItemId : Int)
    (uploadRes : Nat → Except MigrationError String) (urls : Nat → String)
    (pre post : List SourceAttachment) (bad : SourceAttachment)
    (hatt : yt_data.attachments = pre ++ bad :: post)
    (hbad : ',' ∉ bad.base64Content.data)
    (hsplit : ∀ a ∈ pre, ((splitOnChar ',' a.base64Content.data).get? 1).isSome)
    (hup : ∀ i, i < pre.length → uploadRes i = Except.ok (urls i)) :
    (migrateIssue m b64decode yt_id custom_field_handler yt_data
        ⟨some workItemId, raw⟩ uploadRes).1 =
      AdoCall.createWorkItem (composedOps m yt_id custom_field_handler yt_data).1 ::
        AdoCall.patchWorkItem workItemId
          (composedOps m yt_id custom_field_handler yt_data).2 ::
        ((yt_data.comments.map fun c => AdoCall.postComment workItemId
          (commentText m.yt_base yt_id c.author (formatYtTimestamp c.created) c.text)) ++
          expectedAttachmentCalls b64decode urls workItemId pre 0) ∧
    (migrateIssue m b64decode yt_id custom_field_handler yt_data
        ⟨some workItemId, raw⟩ uploadRes).2 =
      Except.error MigrationError.indexError := by
  have h := processAttachments_index_error b64decode uploadRes urls workItemId
    pre bad post 0 hbad hsplit (fun i hi => by simpa using hup i hi)
  constructor
  · rw [migrateIssue_fst, hatt, h]
  · rw [migrateIssue_snd, hatt, h]

/-- Witness for C9 at the concrete comma-free attachment. -/
theorem attachment_without_comma_witness :
    (migrateIssue m0 b64zero "Z-1" handler0 badAttData ⟨some 6, "raw"⟩ okUpload).2 =
      Except.error MigrationError.indexError :=
  (attachment_without_comma m0 b64zero "Z-1" handler0 badAttData "raw" 6 okUpload urls1
    [] [] { name := "b.bin", base64Content := "QUJD" } rfl (by decide)
    (by intro a h; cases h) (fun i hi => by cases hi)).2

end YTMigrator
